import Mathlib

/-!
Verification of the `periodic_coroutine` repository (`src/periodic_coroutine/__init__.py`)
against its natural-language specification.

The single source file defines a class `Periodic` that repeatedly runs an async
unit of work every `interval` seconds, stores the latest result in `self._result`
under an `asyncio.Lock`, and offers `start` / `stop` / `get_result`.

We shallowly embed the class as a Lean structure together with pure functions for
each method (mutation becomes explicit state passing, exceptions become
`Except`), and a small-step model of the driving loop `Periodic._run` together
with the per-cycle task spawned by `Periodic._inner`.

Timing model used for a cycle: `_run` awaits
`asyncio.wait_for(asyncio.gather(self._inner(c), asyncio.sleep(interval)), timeout=interval)`.
Per asyncio semantics, the `wait_for` timeout fires at `interval`; on timeout it
cancels the gather future; cancelling the gather cancels its child tasks; and
cancelling the `_inner` task cancels the future it is awaiting, which is the
work task `self._task`.  Hence a work execution of duration `d` completes (and
writes the slot) when `d < interval`, raises its exception into the loop when it
raises at `d < interval`, and is cancelled by the timeout when `d ≥ interval`.
The repository's own tests record this cancellation behaviour ("always
cancelling the task"; the result slot "never will be" set when the work always
outlasts the interval).
-/

namespace PeriodicCoroutine

/-- Contents of the result slot `self._result`.  With `ignore_exceptions=True`,
`__init__` stores a fresh `object()` sentinel, distinguishable by identity from
any legitimate work result; successful cycles store the work's return value. -/
inductive RSlot (α : Type) : Type
  | sentinel : RSlot α
  | val (a : α) : RSlot α
deriving DecidableEq, Repr

/-- Exceptions raised by the `Periodic` methods themselves.
`runtimeError` embeds the `RuntimeError` raised by `start`/`stop` (the spec's
`InvalidStateError`); `attributeError` embeds the `AttributeError` raised when a
`__slots__` attribute (`_result` in `get_result`, `_main` in `_stop`) is read
before ever being assigned (the spec's `ResultNotReadyError` in the
`get_result` case). -/
inductive PErr : Type
  | runtimeError
  | attributeError
deriving DecidableEq, Repr

/-- State of a `Periodic` instance: the `__slots__` fields of the class.
`coro` is an opaque identifier of the captured work callable, `args`/`kwargs`
its captured arguments.  `result = none` embeds "`self._result` was never
assigned"; `main = none` / `task = none` embed the unassigned `_main` / `_task`
handles (driving-loop task and latest work-execution task). -/
structure Periodic (α : Type) : Type where
  coro : Nat
  args : List Nat
  kwargs : List (Nat × Nat)
  interval : ℚ
  running : Bool
  result : Option (RSlot α)
  main : Option Nat
  task : Option Nat
deriving DecidableEq, Repr

/-- Embedding of `Periodic.__init__`: captures the work and its arguments,
stores `interval` unvalidated, sets `running` to false, and pre-populates the
result slot with the sentinel exactly when `ignore_exceptions` is true.
`_main` and `_task` are left unassigned. -/
def Periodic.init (α : Type) (coro : Nat) (args : List Nat) (kwargs : List (Nat × Nat))
    (interval : ℚ) (ignore_exceptions : Bool) : Periodic α :=
  { coro := coro
    args := args
    kwargs := kwargs
    interval := interval
    running := false
    result := if ignore_exceptions then some RSlot.sentinel else none
    main := none
    task := none }

/-- How `start` scheduled the `_start` callback: `loop.call_soon` when no delay
was given, `loop.call_later delay` otherwise. -/
inductive StartSchedule : Type
  | soon
  | later (d : ℚ)
deriving DecidableEq, Repr

/-- Embedding of `Periodic.start`: raises `RuntimeError` if already running
(state unchanged), otherwise sets `running := true` and schedules `_start`
immediately or after the delay.  The `_main` handle is only assigned when the
event loop later runs the `_start` callback (see `Periodic.startCallback`). -/
def Periodic.start (p : Periodic α) (delay : Option ℚ) :
    Except PErr (Periodic α × StartSchedule) :=
  if p.running then Except.error PErr.runtimeError
  else
    Except.ok ({ p with running := true },
      match delay with
      | none => StartSchedule.soon
      | some d => StartSchedule.later d)

/-- Embedding of `Periodic._start`, the callback scheduled by `start`: creates
the driving-loop task and assigns it to `self._main`.  `tid` is the identity of
the freshly created task. -/
def Periodic.startCallback (p : Periodic α) (tid : Nat) : Periodic α :=
  { p with main := some tid }

/-- Outcome of a successful `stop` call: either `_stop` ran at once and
cancelled the driving-loop task, or `_stop` was scheduled to run after the
delay. -/
inductive StopOutcome : Type
  | cancelledMain (tid : Nat)
  | scheduledStop (d : ℚ)
deriving DecidableEq, Repr

/-- Embedding of `Periodic.stop`: raises `RuntimeError` if not running (state
unchanged).  Otherwise it first sets `running := false`; then with no delay it
calls `_stop` at once, which reads `self._main` — an `AttributeError` if `_main`
was never assigned, a cancellation of the driving-loop task otherwise.  With a
delay, `_stop` is merely scheduled, so `stop` itself cannot raise
`AttributeError`.  Note the flag update survives the `AttributeError`: the
failed call is not atomic. -/
def Periodic.stop (p : Periodic α) (delay : Option ℚ) :
    Except PErr StopOutcome × Periodic α :=
  if !p.running then (Except.error PErr.runtimeError, p)
  else
    let p' := { p with running := false }
    match delay with
    | none =>
      match p'.main with
      | none => (Except.error PErr.attributeError, p')
      | some tid => (Except.ok (StopOutcome.cancelledMain tid), p')
    | some d => (Except.ok (StopOutcome.scheduledStop d), p')

/-- Embedding of `Periodic.get_result`: acquire the lock, read `self._result`,
release the lock, return the value.  Reading the never-assigned slot raises
`AttributeError`.  The transient lock acquisition aside, the method touches no
field of the instance, which the identical returned state records. -/
def Periodic.get_result (p : Periodic α) : Except PErr (RSlot α) × Periodic α :=
  match p.result with
  | none => (Except.error PErr.attributeError, p)
  | some r => (Except.ok r, p)

/-- Behaviour of one invocation of the unit of work (the coroutine run by the
work-execution task created in `Periodic._inner`): it either completes with a
value `v` after duration `d`, or raises a non-cancellation exception `e` after
duration `d`.  Durations are measured from the start of the cycle. -/
inductive WorkOutcome (α ε : Type) : Type
  | ok (v : α) (d : ℚ)
  | raised (e : ε) (d : ℚ)
deriving DecidableEq, Repr

/-- Fate of one cycle's work-execution task, as observed by the end of the
cycle's bounded wait in `Periodic._run`. -/
inductive TaskFate (α ε : Type) : Type
  | wroteResult (v : α)
  | cancelled
  | failed (e : ε)
deriving DecidableEq, Repr

/-- Per-cycle semantics of
`wait_for(gather(self._inner(c), sleep(interval)), timeout=interval)`:

* work completing with `v` at `d < interval` finishes within the wait; `_inner`
  acquires the lock and writes `v` into the result slot;
* work raising `e` at `d < interval` makes `_inner`, hence the gather, hence
  the `wait_for`, raise `e` before the timeout; `suppress(TimeoutError)`
  and `suppress(CancelledError)` do not catch it;
* work still outstanding at the timeout (`d ≥ interval`) is cancelled: the
  timeout cancels the gather, the gather cancels the `_inner` task, and
  cancelling `_inner` cancels the work task it is awaiting, so the slot is
  never written.  The `TimeoutError` and the gather's `CancelledError` are the
  two suppressed signals, and the loop proceeds to the next cycle. -/
def taskFate (interval : ℚ) : WorkOutcome α ε → TaskFate α ε
  | WorkOutcome.ok v d => if d < interval then TaskFate.wroteResult v else TaskFate.cancelled
  | WorkOutcome.raised e d => if d < interval then TaskFate.failed e else TaskFate.cancelled

/-- Fate of the current cycle's work-execution task when `stop()` cancels the
driving-loop task at time `t` into the cycle.  Per asyncio semantics the
cancellation of the loop task cancels the awaited `wait_for`, which cancels the
gather, which cancels the `_inner` task, which cancels the awaited work task —
unless the work already finished (at `d ≤ t`), in which case its effect
(result write, or exception) already happened. -/
def stopFate (o : WorkOutcome α ε) (t : ℚ) : TaskFate α ε :=
  match o with
  | WorkOutcome.ok v d => if d ≤ t then TaskFate.wroteResult v else TaskFate.cancelled
  | WorkOutcome.raised e d => if d ≤ t then TaskFate.failed e else TaskFate.cancelled

/-- A cycle "completes successfully" when its work returns a value within the
interval, so that `_inner` writes the result slot. -/
def isSuccess (interval : ℚ) : WorkOutcome α ε → Bool
  | WorkOutcome.ok _ d => decide (d < interval)
  | WorkOutcome.raised _ _ => false

/-- Status of the driving-loop task created by `_start`:
still iterating (`active`), terminated by an uncaught exception from a work
execution (`failed e`), or cancelled by `stop()` (`stopped`). -/
inductive LoopStatus (ε : Type) : Type
  | active
  | failed (e : ε)
  | stopped
deriving DecidableEq, Repr

/-- State of one run of the driving loop `Periodic._run` together with the
instance it mutates.  `counter` is the value the `for c in itertools.count(1)`
iterator will yield next; `spawned` records, in order, the cycle labels `c`
with which work-execution tasks were spawned (the task names
`Periodic-<name>-<c>`). -/
structure LoopState (α ε : Type) : Type where
  periodic : Periodic α
  counter : Nat
  spawned : List Nat
  status : LoopStatus ε
deriving DecidableEq, Repr

/-- The loop state at entry to `Periodic._run`: `itertools.count(1)` will yield
1 first, no work task has been spawned yet. -/
def initLoop (p : Periodic α) (ε : Type) : LoopState α ε :=
  { periodic := p, counter := 1, spawned := [], status := LoopStatus.active }

/-- One iteration of the `for c in itertools.count(1)` loop of `Periodic._run`,
given the behaviour `o` of this cycle's work invocation.  A terminated loop
(failed or stopped) spawns nothing and changes nothing.  An active loop spawns
the work task labelled `counter` (assigning `self._task`), then:

* on success within the interval the slot is written with the value;
* on timeout the work task is cancelled and nothing is written;
* on a non-cancellation exception within the interval the exception escapes
  both `suppress` blocks and `_run`, so the loop terminates in `failed`.

The loop never touches the `running` flag. -/
def stepCycle (s : LoopState α ε) (o : WorkOutcome α ε) : LoopState α ε :=
  match s.status with
  | LoopStatus.active =>
    let spawned' := s.spawned ++ [s.counter]
    let p' := { s.periodic with task := some s.counter }
    match taskFate s.periodic.interval o with
    | TaskFate.wroteResult v =>
      { s with periodic := { p' with result := some (RSlot.val v) }
               counter := s.counter + 1
               spawned := spawned' }
    | TaskFate.cancelled =>
      { s with periodic := p'
               counter := s.counter + 1
               spawned := spawned' }
    | TaskFate.failed e =>
      { s with periodic := p'
               spawned := spawned'
               status := LoopStatus.failed e }
  | _ => s

/-- Iterating the driving loop over a list of per-cycle work behaviours. -/
def runCycles (s : LoopState α ε) (os : List (WorkOutcome α ε)) : LoopState α ε :=
  List.foldl stepCycle s os

/-- Modelled from the spec: one queued request on the exclusive access guard
protecting the result slot.  In the source the guard is an `asyncio.Lock`,
whose implementation is not under `src/`; the spec requires it to grant access
in first-requested, first-granted order, with writers storing a complete value
and readers observing the slot.  A `write v` request is a work-execution task
about to store `v`; a `read` request is a `get_result` caller. -/
inductive GuardReq (α : Type) : Type
  | write (v : α)
  | read
deriving DecidableEq, Repr

/-- Modelled from the spec: the value held by the result slot after the guard
has served, in first-requested first-granted order, an initial slot value and a
queue of requests.  Each writer holds the guard alone and stores its complete
value; readers leave the slot unchanged. -/
def slotAfter (s : Option α) : List (GuardReq α) → Option α
  | [] => s
  | GuardReq.write v :: q => slotAfter (some v) q
  | GuardReq.read :: q => slotAfter s q

/-- Modelled from the spec: the slot value observed by the request at position
`k` of the queue when the guard grants it access — the slot after exactly the
`k` earlier requests have been served, in their arrival order. -/
def readObs (s : Option α) (q : List (GuardReq α)) (k : Nat) : Option α :=
  slotAfter s (q.take k)

/-! ### Helper lemmas about the driving-loop model -/

theorem stepCycle_interval (s : LoopState α ε) (o : WorkOutcome α ε) :
    (stepCycle s o).periodic.interval = s.periodic.interval := by
  rcases s with ⟨p, c, sp, st⟩
  cases st <;> simp [stepCycle]
  cases taskFate p.interval o <;> simp

theorem stepCycle_running (s : LoopState α ε) (o : WorkOutcome α ε) :
    (stepCycle s o).periodic.running = s.periodic.running := by
  rcases s with ⟨p, c, sp, st⟩
  cases st <;> simp [stepCycle]
  cases taskFate p.interval o <;> simp

theorem runCycles_interval (os : List (WorkOutcome α ε)) :
    ∀ s : LoopState α ε, (runCycles s os).periodic.interval = s.periodic.interval := by
  induction os with
  | nil => intro s; rfl
  | cons o os ih =>
    intro s
    calc (runCycles (stepCycle s o) os).periodic.interval
        = (stepCycle s o).periodic.interval := ih _
      _ = s.periodic.interval := stepCycle_interval s o

theorem runCycles_running (os : List (WorkOutcome α ε)) :
    ∀ s : LoopState α ε, (runCycles s os).periodic.running = s.periodic.running := by
  induction os with
  | nil => intro s; rfl
  | cons o os ih =>
    intro s
    calc (runCycles (stepCycle s o) os).periodic.running
        = (stepCycle s o).periodic.running := ih _
      _ = s.periodic.running := stepCycle_running s o

theorem stepCycle_of_failed (s : LoopState α ε) (o : WorkOutcome α ε) (e : ε)
    (h : s.status = LoopStatus.failed e) : stepCycle s o = s := by
  rcases s with ⟨p, c, sp, st⟩
  cases st <;> simp_all [stepCycle]

theorem runCycles_of_failed (os : List (WorkOutcome α ε)) :
    ∀ (s : LoopState α ε) (e : ε), s.status = LoopStatus.failed e → runCycles s os = s := by
  induction os with
  | nil => intro s e _; rfl
  | cons o os ih =>
    intro s e h
    show runCycles (stepCycle s o) os = s
    rw [stepCycle_of_failed s o e h]
    exact ih s e h

/-! ### C4, C5, C7, C9, C10: lifecycle, sentinel, interval, frame -/

/-- C4: `start()` while running fails with the invalid-state error
(`RuntimeError` in the source) and changes nothing; otherwise it sets `running`
to true.  `stop()` while not running fails the same way and changes nothing;
otherwise it sets `running` to false. -/
theorem claim4_start_stop_running (α : Type) (p : Periodic α) (delay : Option ℚ) :
    (p.running = true → p.start delay = Except.error PErr.runtimeError) ∧
    (p.running = false →
      ∃ sched, p.start delay = Except.ok ({ p with running := true }, sched)) ∧
    (p.running = false → p.stop delay = (Except.error PErr.runtimeError, p)) ∧
    (p.running = true → (p.stop delay).2.running = false) := by
  refine ⟨?_, ?_, ?_, ?_⟩ <;> intro h
  · simp [Periodic.start, h]
  · rcases delay with _ | d
    · exact ⟨StartSchedule.soon, by simp [Periodic.start, h]⟩
    · exact ⟨StartSchedule.later d, by simp [Periodic.start, h]⟩
  · simp [Periodic.stop, h]
  · rcases delay with _ | d <;> rcases hm : p.main with _ | tid <;>
      simp [Periodic.stop, h, hm]

/-- Closed instance of `claim4_start_stop_running` at a concrete scheduler. -/
theorem claim4_witness :
    ((Periodic.init Nat 0 [] [] 2 false).start none).isOk = true ∧
    ((({ Periodic.init Nat 0 [] [] 2 false with running := true } : Periodic Nat).stop
        (some 1)).2.running = false) := by
  have h := claim4_start_stop_running Nat (Periodic.init Nat 0 [] [] 2 false) none
  have h2 := claim4_start_stop_running Nat
    ({ Periodic.init Nat 0 [] [] 2 false with running := true }) (some 1)
  refine ⟨?_, h2.2.2.2 rfl⟩
  rcases h.2.1 rfl with ⟨sched, hs⟩
  rw [hs]; rfl

/-- C5: constructing with `ignore_exceptions = true` pre-populates the result
slot with the sentinel, so `get_result` before any completion returns the
sentinel (never an error), and the sentinel differs from every legitimate work
result. -/
theorem claim5_sentinel (α : Type) (coro : Nat) (args : List Nat)
    (kwargs : List (Nat × Nat)) (interval : ℚ) :
    (Periodic.init α coro args kwargs interval true).result = some RSlot.sentinel ∧
    (Periodic.init α coro args kwargs interval true).get_result =
      (Except.ok RSlot.sentinel, Periodic.init α coro args kwargs interval true) ∧
    ∀ a : α, (RSlot.sentinel : RSlot α) ≠ RSlot.val a := by
  refine ⟨rfl, by simp [Periodic.get_result, Periodic.init], ?_⟩
  intro a h
  exact RSlot.noConfusion h

/-- C7 fails as stated: construction does not validate the interval.  This
concrete instance is constructed with interval `-1`, so not every constructed
instance has a strictly positive interval. -/
theorem claim7_counterexample :
    (Periodic.init Nat 0 [] [] (-1) false).interval = -1 ∧
    ¬ 0 < (Periodic.init Nat 0 [] [] (-1) false).interval := by
  constructor
  · rfl
  · show ¬ (0 : ℚ) < -1
    decide

/-- C7 amended: construction stores the interval argument unvalidated, and
every operation preserves the stored interval; hence any instance constructed
with a positive interval keeps a positive interval forever.  (The unamended
claim fails because construction itself accepts non-positive intervals, see
`claim7_counterexample`.) -/
theorem claim7_interval_preserved (α ε : Type) (c : Nat) (a : List Nat)
    (k : List (Nat × Nat)) (I : ℚ) (ig : Bool) (hI : 0 < I) :
    0 < (Periodic.init α c a k I ig).interval ∧
    (∀ (p : Periodic α) (d : Option ℚ) (q : Periodic α) (sched : StartSchedule),
      p.start d = Except.ok (q, sched) → q.interval = p.interval) ∧
    (∀ (p : Periodic α) (tid : Nat), (p.startCallback tid).interval = p.interval) ∧
    (∀ (p : Periodic α) (d : Option ℚ), (p.stop d).2.interval = p.interval) ∧
    (∀ p : Periodic α, (p.get_result).2.interval = p.interval) ∧
    (∀ (s : LoopState α ε) (os : List (WorkOutcome α ε)),
      (runCycles s os).periodic.interval = s.periodic.interval) := by
  refine ⟨hI, ?_, fun p tid => rfl, ?_, ?_, fun s os => runCycles_interval os s⟩
  · intro p d q sched h
    by_cases hr : p.running
    · simp [Periodic.start, hr] at h
    · simp [Periodic.start, hr] at h
      rw [← h.1]
  · intro p d
    by_cases hr : p.running
    · rcases d with _ | d <;> rcases hm : p.main with _ | tid <;>
        simp [Periodic.stop, hr, hm]
    · simp [Periodic.stop, hr]
  · intro p
    rcases hres : p.result with _ | r <;> simp [Periodic.get_result, hres]

/-- Closed instance of `claim7_interval_preserved`. -/
theorem claim7_witness :
    0 < (Periodic.init Nat 0 [] [] 2 false).interval ∧
    ((Periodic.init Nat 0 [] [] 2 false).get_result).2.interval =
      (Periodic.init Nat 0 [] [] 2 false).interval := by
  have h := claim7_interval_preserved Nat Nat 0 [] [] 2 false (by decide)
  exact ⟨h.1, h.2.2.2.2.1 _⟩

/-- C9: after a successful `start()` on a fresh instance, before the event loop
runs the `_start` callback, `running` is true but `_main` is unassigned; an
immediate `stop()` then raises `AttributeError` from `_stop` reading
`self._main`, yet `running` has already been flipped to false — the failed
`stop()` is not atomic. -/
theorem claim9_stop_before_callback (α : Type) (c : Nat) (a : List Nat)
    (k : List (Nat × Nat)) (I : ℚ) (ig : Bool) (d : Option ℚ)
    (q : Periodic α) (sched : StartSchedule)
    (h : (Periodic.init α c a k I ig).start d = Except.ok (q, sched)) :
    q.running = true ∧ q.main = none ∧
    q.stop none = (Except.error PErr.attributeError, { q with running := false }) ∧
    (q.stop none).2.running = false := by
  have hq : q = { Periodic.init α c a k I ig with running := true } := by
    simp [Periodic.start, Periodic.init] at h
    exact h.1.symm
  subst hq
  refine ⟨rfl, rfl, ?_, ?_⟩ <;> simp [Periodic.stop, Periodic.init]

/-- Closed instance of `claim9_stop_before_callback`. -/
theorem claim9_witness :
    (({ Periodic.init Nat 0 [] [] 2 false with running := true } : Periodic Nat).stop
        none).2.running = false := by
  have h := claim9_stop_before_callback Nat 0 [] [] 2 false none
    ({ Periodic.init Nat 0 [] [] 2 false with running := true }) StartSchedule.soon rfl
  exact h.2.2.2

/-- C10: `get_result` is observationally pure on the scheduler state: whether
it returns a value or raises, the result slot, the running flag, the interval,
and the captured work reference and arguments are unchanged. -/
theorem claim10_get_result_frame (α : Type) (p : Periodic α) :
    (p.get_result).2.result = p.result ∧
    (p.get_result).2.running = p.running ∧
    (p.get_result).2.interval = p.interval ∧
    (p.get_result).2.coro = p.coro ∧
    (p.get_result).2.args = p.args ∧
    (p.get_result).2.kwargs = p.kwargs := by
  rcases hres : p.result with _ | r <;> simp [Periodic.get_result, hres]

/-! ### C1 (corrected) and C2: cancellation and failure propagation -/

/-- C1 fails as stated: in this concrete cycle the interval is 1 and the work
would complete with 42 only at time 2, so it is still outstanding when the
per-cycle wait times out — and the `wait_for` timeout cancels the combined
future, which cancels the work task.  The task does not keep running to write
its value: its fate is `cancelled`, not `wroteResult 42`, and the result slot
stays unwritten.  The repository's own tests record this ("always cancelling
the task"; with the work always outlasting the interval the slot "never will
be" set). -/
theorem claim1_counterexample :
    taskFate (α := Nat) (ε := Nat) 1 (WorkOutcome.ok 42 2) = TaskFate.cancelled ∧
    taskFate (α := Nat) (ε := Nat) 1 (WorkOutcome.ok 42 2) ≠ TaskFate.wroteResult 42 ∧
    (stepCycle (initLoop (Periodic.init Nat 0 [] [] 1 false) Nat)
        (WorkOutcome.ok 42 2)).periodic.result = none := by
  refine ⟨?_, ?_, ?_⟩
  · show (if (2 : ℚ) < 1 then TaskFate.wroteResult 42 else TaskFate.cancelled) = _
    rw [if_neg (by decide)]
  · show (if (2 : ℚ) < 1 then TaskFate.wroteResult 42 else TaskFate.cancelled) ≠ _
    rw [if_neg (by decide)]
    intro h
    exact TaskFate.noConfusion h
  · simp [stepCycle, initLoop, taskFate, Periodic.init,
      if_neg (show ¬ (2 : ℚ) < 1 by decide)]

/-- C1 amended: a work-execution task still outstanding when the per-cycle
wait times out IS cancelled — the timeout cancels the gather, the gather
cancels the inner task, and that cancels the awaited work task — so it never
writes the result slot, and the loop proceeds to the next cycle.  Likewise a
`stop()` that cancels the driving loop before the work finishes propagates the
cancellation down to the outstanding work task instead of leaving it running. -/
theorem claim1_outstanding_work_cancelled (α ε : Type) (s : LoopState α ε)
    (v : α) (d : ℚ) (hact : s.status = LoopStatus.active)
    (hd : s.periodic.interval ≤ d) :
    taskFate (ε := ε) s.periodic.interval (WorkOutcome.ok v d) = TaskFate.cancelled ∧
    (stepCycle s (WorkOutcome.ok v d)).periodic.result = s.periodic.result ∧
    (stepCycle s (WorkOutcome.ok v d)).status = LoopStatus.active ∧
    (stepCycle s (WorkOutcome.ok v d)).counter = s.counter + 1 ∧
    (∀ t : ℚ, t < d → stopFate (ε := ε) (WorkOutcome.ok v d) t = TaskFate.cancelled) := by
  have hfate : taskFate (ε := ε) s.periodic.interval (WorkOutcome.ok v d)
      = TaskFate.cancelled := by
    simp [taskFate, not_lt_of_le hd]
  rcases s with ⟨p, c, sp, st⟩
  subst hact
  refine ⟨hfate, ?_, ?_, ?_, ?_⟩
  · simp [stepCycle, hfate]
  · simp [stepCycle, hfate]
  · simp [stepCycle, hfate]
  · intro t ht
    have : ¬ d ≤ t := not_le_of_lt ht
    simp [stopFate, this]

/-- Closed instance of `claim1_outstanding_work_cancelled`: interval 1, work
completing at time 3. -/
theorem claim1_witness :
    (stepCycle (initLoop (Periodic.init Nat 0 [] [] 1 false) Nat)
        (WorkOutcome.ok 5 3)).periodic.result = none ∧
    stopFate (ε := Nat) (WorkOutcome.ok (5 : Nat) 3) 2 = TaskFate.cancelled := by
  have h := claim1_outstanding_work_cancelled Nat Nat
    (initLoop (Periodic.init Nat 0 [] [] 1 false) Nat) 5 3 rfl (by decide)
  exact ⟨h.2.1, h.2.2.2.2 2 (by decide)⟩

/-- C2: a work execution raising a non-cancellation failure at `d` strictly
inside the interval makes the failure escape both `suppress` blocks of `_run`:
the driving loop terminates carrying that failure, spawns no further cycles,
leaves the result slot alone, and never touches the `running` flag (so a flag
that was true stays true). -/
theorem claim2_failure_propagates (α ε : Type) (s : LoopState α ε) (e : ε) (d : ℚ)
    (hact : s.status = LoopStatus.active) (hd : d < s.periodic.interval) :
    (stepCycle s (WorkOutcome.raised e d)).status = LoopStatus.failed e ∧
    (stepCycle s (WorkOutcome.raised e d)).periodic.running = s.periodic.running ∧
    (stepCycle s (WorkOutcome.raised e d)).periodic.result = s.periodic.result ∧
    (stepCycle s (WorkOutcome.raised e d)).spawned = s.spawned ++ [s.counter] ∧
    (∀ os : List (WorkOutcome α ε),
      runCycles (stepCycle s (WorkOutcome.raised e d)) os
        = stepCycle s (WorkOutcome.raised e d)) := by
  have hfate : taskFate (α := α) s.periodic.interval (WorkOutcome.raised e d)
      = TaskFate.failed e := by
    simp [taskFate, hd]
  rcases s with ⟨p, c, sp, st⟩
  subst hact
  have hstep : stepCycle (⟨p, c, sp, LoopStatus.active⟩ : LoopState α ε)
      (WorkOutcome.raised e d)
      = ⟨{ p with task := some c }, c, sp ++ [c], LoopStatus.failed e⟩ := by
    simp [stepCycle, hfate]
  refine ⟨by simp [hstep], by simp [hstep], by simp [hstep], by simp [hstep], ?_⟩
  intro os
  exact runCycles_of_failed os _ e (by simp [hstep])

/-- Closed instance of `claim2_failure_propagates`: a running scheduler whose
work raises failure 7 at time 0 with interval 1; two more cycles are offered
but none is spawned. -/
theorem claim2_witness :
    (stepCycle (initLoop ({ Periodic.init Nat 0 [] [] 1 false with running := true })
        Nat) (WorkOutcome.raised 7 0)).status = LoopStatus.failed 7 ∧
    (stepCycle (initLoop ({ Periodic.init Nat 0 [] [] 1 false with running := true })
        Nat) (WorkOutcome.raised 7 0)).periodic.running = true ∧
    runCycles (stepCycle
        (initLoop ({ Periodic.init Nat 0 [] [] 1 false with running := true }) Nat)
        (WorkOutcome.raised 7 0)) [WorkOutcome.ok 1 0, WorkOutcome.ok 2 0]
      = stepCycle (initLoop ({ Periodic.init Nat 0 [] [] 1 false with running := true })
          Nat) (WorkOutcome.raised 7 0) := by
  have h := claim2_failure_propagates Nat Nat
    (initLoop ({ Periodic.init Nat 0 [] [] 1 false with running := true }) Nat)
    7 0 rfl (by decide)
  exact ⟨h.1, h.2.1, h.2.2.2.2 _⟩

/-! ### C3: result readiness without `ignore_exceptions` -/

theorem stepCycle_result_none (s : LoopState α ε) (o : WorkOutcome α ε)
    (hres : s.periodic.result = none)
    (hno : isSuccess s.periodic.interval o = false) :
    (stepCycle s o).periodic.result = none := by
  rcases s with ⟨p, c, sp, st⟩
  cases st
  · rcases o with ⟨v, d⟩ | ⟨e, d⟩
    · have hd : ¬ d < p.interval := by simpa [isSuccess] using hno
      simp only [stepCycle, taskFate]
      rw [if_neg hd]
      exact hres
    · by_cases hd : d < p.interval
      · simp only [stepCycle, taskFate]
        rw [if_pos hd]
        exact hres
      · simp only [stepCycle, taskFate]
        rw [if_neg hd]
        exact hres
  · exact hres
  · exact hres

theorem runCycles_result_none (os : List (WorkOutcome α ε)) :
    ∀ s : LoopState α ε, s.periodic.result = none →
    (∀ o ∈ os, isSuccess s.periodic.interval o = false) →
    (runCycles s os).periodic.result = none := by
  induction os with
  | nil => intro s h _; exact h
  | cons o os ih =>
    intro s h hall
    show (runCycles (stepCycle s o) os).periodic.result = none
    apply ih
    · exact stepCycle_result_none s o h (hall o (by simp))
    · intro o' ho'
      rw [stepCycle_interval]
      exact hall o' (by simp [ho'])

theorem stepCycle_result_isSome (s : LoopState α ε) (o : WorkOutcome α ε)
    (h : (s.periodic.result).isSome = true) :
    ((stepCycle s o).periodic.result).isSome = true := by
  rcases s with ⟨p, c, sp, st⟩
  cases st
  · cases hf : taskFate p.interval o <;> simp_all [stepCycle, hf]
  · exact h
  · exact h

theorem runCycles_result_isSome (os : List (WorkOutcome α ε)) :
    ∀ s : LoopState α ε, (s.periodic.result).isSome = true →
    ((runCycles s os).periodic.result).isSome = true := by
  induction os with
  | nil => intro s h; exact h
  | cons o os ih =>
    intro s h
    exact ih _ (stepCycle_result_isSome s o h)

theorem stepCycle_success_writes (s : LoopState α ε) (o : WorkOutcome α ε)
    (hact : s.status = LoopStatus.active)
    (hs : isSuccess s.periodic.interval o = true) :
    ∃ v, (stepCycle s o).periodic.result = some (RSlot.val v) := by
  rcases o with ⟨v, d⟩ | ⟨e, d⟩
  · have hd : d < s.periodic.interval := by simpa [isSuccess] using hs
    rcases s with ⟨p, c, sp, st⟩
    subst hact
    exact ⟨v, by simp [stepCycle, taskFate, hd]⟩
  · simp [isSuccess] at hs

/-- C3: with `ignore_exceptions = false`, as long as no cycle has completed
successfully the result slot was never assigned, so `get_result` raises the
not-ready error (`AttributeError` in the source); and from the first successful
cycle on, `get_result` returns a value rather than failing. -/
theorem claim3_result_ready (α ε : Type) :
    (∀ (c : Nat) (a : List Nat) (k : List (Nat × Nat)) (I : ℚ)
        (os : List (WorkOutcome α ε)),
      (∀ o ∈ os, isSuccess I o = false) →
      (runCycles (initLoop (Periodic.init α c a k I false) ε) os).periodic.result
          = none ∧
      ((runCycles (initLoop (Periodic.init α c a k I false) ε) os).periodic.get_result).1
          = Except.error PErr.attributeError) ∧
    (∀ (s : LoopState α ε) (o : WorkOutcome α ε) (os : List (WorkOutcome α ε)),
      s.status = LoopStatus.active → isSuccess s.periodic.interval o = true →
      ∃ r, ((runCycles s (o :: os)).periodic.get_result).1 = Except.ok r) := by
  constructor
  · intro c a k I os hall
    have hres : (runCycles (initLoop (Periodic.init α c a k I false) ε) os).periodic.result
        = none := by
      apply runCycles_result_none
      · rfl
      · intro o ho
        exact hall o ho
    exact ⟨hres, by simp [Periodic.get_result, hres]⟩
  · intro s o os hact hs
    have h1 : ((stepCycle s o).periodic.result).isSome = true := by
      rcases stepCycle_success_writes s o hact hs with ⟨v, hv⟩
      simp [hv]
    have h2 : ((runCycles (stepCycle s o) os).periodic.result).isSome = true :=
      runCycles_result_isSome os _ h1
    show ∃ r, ((runCycles (stepCycle s o) os).periodic.get_result).1 = Except.ok r
    rcases hr : (runCycles (stepCycle s o) os).periodic.result with _ | r
    · rw [hr] at h2
      simp at h2
    · exact ⟨r, by simp [Periodic.get_result, hr]⟩

/-- Closed instance of `claim3_result_ready`: with interval 1, a run whose only
cycle outlasts the interval leaves `get_result` failing, and a run whose first
cycle succeeds at time 0 makes `get_result` return a value. -/
theorem claim3_witness :
    ((runCycles (initLoop (Periodic.init Nat 0 [] [] 1 false) Nat)
        [WorkOutcome.ok 5 3]).periodic.get_result).1
      = Except.error PErr.attributeError ∧
    ∃ r, ((runCycles (initLoop (Periodic.init Nat 0 [] [] 1 false) Nat)
        (WorkOutcome.ok 5 0 :: [])).periodic.get_result).1 = Except.ok r := by
  have h := claim3_result_ready Nat Nat
  refine ⟨(h.1 0 [] [] 1 [WorkOutcome.ok 5 3] ?_).2, h.2 _ _ [] rfl (by decide)⟩
  intro o ho
  simp at ho
  subst ho
  decide

/-! ### C8: the cycle counter -/

theorem range'_concat_one (s n : Nat) :
    List.range' s (n + 1) = List.range' s n ++ [s + n] := by
  have h := @List.range'_concat 1 s n
  simpa using h

theorem stepCycle_of_stopped (s : LoopState α ε) (o : WorkOutcome α ε)
    (h : s.status = LoopStatus.stopped) : stepCycle s o = s := by
  rcases s with ⟨p, c, sp, st⟩
  cases st <;> simp_all [stepCycle]

theorem runCycles_of_stopped (os : List (WorkOutcome α ε)) :
    ∀ s : LoopState α ε, s.status = LoopStatus.stopped → runCycles s os = s := by
  induction os with
  | nil => intro s _; rfl
  | cons o os ih =>
    intro s h
    show runCycles (stepCycle s o) os = s
    rw [stepCycle_of_stopped s o h]
    exact ih s h

theorem stepCycle_spawned_active (p : Periodic α) (c : Nat) (sp : List Nat)
    (o : WorkOutcome α ε) :
    (stepCycle ⟨p, c, sp, LoopStatus.active⟩ o).spawned = sp ++ [c] ∧
    ((stepCycle ⟨p, c, sp, LoopStatus.active⟩ o).status = LoopStatus.active →
      (stepCycle ⟨p, c, sp, LoopStatus.active⟩ o).counter = c + 1) := by
  cases hf : taskFate p.interval o <;> simp [stepCycle, hf]

/-- Invariant of the driving loop: the list of spawned cycle labels is always
an initial segment `1, 2, …, m` of the positive integers, and while the loop is
still active the iterator will yield `1 + m` next. -/
theorem runCycles_spawned_range (os : List (WorkOutcome α ε)) :
    ∀ (s : LoopState α ε) (m : Nat), s.spawned = List.range' 1 m →
      (s.status = LoopStatus.active → s.counter = 1 + m) →
      ∃ m', m ≤ m' ∧ m' ≤ m + os.length ∧
        (runCycles s os).spawned = List.range' 1 m' ∧
        ((runCycles s os).status = LoopStatus.active →
          (runCycles s os).counter = 1 + m') := by
  induction os with
  | nil =>
    intro s m h1 h2
    exact ⟨m, le_refl m, by simp, h1, h2⟩
  | cons o os ih =>
    intro s m h1 h2
    rcases s with ⟨p, c, sp, st⟩
    cases st with
    | active =>
      have hc : c = 1 + m := h2 rfl
      have hstep := stepCycle_spawned_active p c sp o
      have hsp : (stepCycle ⟨p, c, sp, LoopStatus.active⟩ o).spawned
          = List.range' 1 (m + 1) := by
        have h1' : sp = List.range' 1 m := h1
        rw [hstep.1, h1', hc, range'_concat_one]
      have hcnt : (stepCycle ⟨p, c, sp, LoopStatus.active⟩ o).status = LoopStatus.active →
          (stepCycle ⟨p, c, sp, LoopStatus.active⟩ o).counter = 1 + (m + 1) := by
        intro ha
        rw [hstep.2 ha, hc]
        omega
      rcases ih (stepCycle ⟨p, c, sp, LoopStatus.active⟩ o) (m + 1) hsp hcnt with
        ⟨m', hm1, hm2, hm3, hm4⟩
      refine ⟨m', ?_, ?_, hm3, hm4⟩
      · omega
      · simp only [List.length_cons]
        omega
    | failed e =>
      refine ⟨m, le_refl m, Nat.le_add_right m _, ?_, ?_⟩ <;>
        rw [runCycles_of_failed (o :: os) _ e rfl]
      · exact h1
      · exact h2
    | stopped =>
      refine ⟨m, le_refl m, Nat.le_add_right m _, ?_, ?_⟩ <;>
        rw [runCycles_of_stopped (o :: os) _ rfl]
      · exact h1
      · exact h2

/-- C8: from the start of the driving loop, the spawned work-execution tasks
are labelled `1, 2, …, m` in order for some `m` bounded by the number of cycles
offered: the counter starts at 1, the task spawned in the `n`-th iteration is
labelled `n` (the `1 + i` at 0-based index `i`), and the labels are strictly
increasing. -/
theorem claim8_cycle_labels (α ε : Type) (p : Periodic α)
    (os : List (WorkOutcome α ε)) :
    ∃ m, m ≤ os.length ∧
      (runCycles (initLoop p ε) os).spawned = List.range' 1 m ∧
      (∀ i, i < m → ((runCycles (initLoop p ε) os).spawned)[i]? = some (1 + i)) ∧
      List.Pairwise (fun x y => x < y) (runCycles (initLoop p ε) os).spawned := by
  rcases runCycles_spawned_range os (initLoop p ε) 0 rfl (fun _ => rfl) with
    ⟨m, _, hle, hsp, _⟩
  refine ⟨m, by simpa using hle, hsp, ?_, ?_⟩
  · intro i hi
    rw [hsp, List.getElem?_range' _ _ hi]
    simp
  · rw [hsp]
    exact List.pairwise_lt_range' 1 m

/-! ### C6: the exclusive access guard -/

theorem slotAfter_append (s : Option α) (q r : List (GuardReq α)) :
    slotAfter s (q ++ r) = slotAfter (slotAfter s q) r := by
  induction q generalizing s with
  | nil => rfl
  | cons a q ih => cases a <;> simp [slotAfter, ih]

theorem slotAfter_mem (l : List (GuardReq α)) :
    ∀ s : Option α,
      slotAfter s l = s ∨ ∃ v, GuardReq.write v ∈ l ∧ slotAfter s l = some v := by
  induction l with
  | nil => intro s; left; rfl
  | cons a l ih =>
    intro s
    cases a with
    | read =>
      rcases ih s with h | ⟨v, hv, he⟩
      · left
        exact h
      · right
        exact ⟨v, by simp [hv], he⟩
    | write v =>
      rcases ih (some v) with h | ⟨w, hw, he⟩
      · right
        exact ⟨v, by simp, h⟩
      · right
        exact ⟨w, by simp [hw], he⟩

/-- C6: the guard serves its queue in first-requested, first-granted order.
A read queued immediately between two writers observes exactly the first
writer's value, never the second's; every observation is either the initial
slot content or the complete value of some write that was granted earlier in
the queue (no partial writes); and what a request at position `k` observes is
fully determined by the `k` requests ahead of it — an unbounded stream of
writers arriving later cannot defer or change it (no starvation). -/
theorem claim6_guard_fifo (α : Type) :
    (∀ (s : Option α) (q1 q2 : List (GuardReq α)) (v1 v2 : α),
      readObs s (q1 ++ GuardReq.write v1 :: GuardReq.read :: GuardReq.write v2 :: q2)
          (q1.length + 1) = some v1) ∧
    (∀ (s : Option α) (q : List (GuardReq α)) (k : Nat),
      readObs s q k = s ∨ ∃ v, GuardReq.write v ∈ q.take k ∧ readObs s q k = some v) ∧
    (∀ (s : Option α) (q r : List (GuardReq α)) (k : Nat), k ≤ q.length →
      readObs s (q ++ r) k = readObs s q k) := by
  refine ⟨?_, ?_, ?_⟩
  · intro s q1 q2 v1 v2
    show slotAfter s
      ((q1 ++ GuardReq.write v1 :: GuardReq.read :: GuardReq.write v2 :: q2).take
        (q1.length + 1)) = some v1
    have htake :
        (q1 ++ GuardReq.write v1 :: GuardReq.read :: GuardReq.write v2 :: q2).take
          (q1.length + 1) = q1 ++ [GuardReq.write v1] := by
      rw [List.take_append 1]
      simp
    rw [htake, slotAfter_append]
    rfl
  · intro s q k
    exact slotAfter_mem (q.take k) s
  · intro s q r k hk
    show slotAfter s ((q ++ r).take k) = slotAfter s (q.take k)
    rw [List.take_append_of_le_length hk]

/-- Closed instance of `claim6_guard_fifo`: a read between a write of 5 and a
write of 9 observes 5, and a read's observation ignores writers queued after
it. -/
theorem claim6_witness :
    readObs (none : Option Nat)
        ([] ++ GuardReq.write 5 :: GuardReq.read :: GuardReq.write 9 :: []) 1
      = some 5 ∧
    readObs (none : Option Nat) ([GuardReq.write 1] ++ [GuardReq.write 2]) 1
      = readObs (none : Option Nat) [GuardReq.write 1] 1 := by
  have h := claim6_guard_fifo Nat
  exact ⟨h.1 none [] [] 5 9, h.2.2 none [GuardReq.write 1] [GuardReq.write 2] 1 (by simp)⟩

end PeriodicCoroutine
